import Mathlib

/-!
Shallow embedding of the tryton-analyzer repository (src/tryton_analyzer),
covering the parts of the code exercised by the verified claims:

* the diagnostic model of tools.py (error codes, severities, message data);
* the pool data model of pool.py (PoolModel, Pool.get, Module registration
  scan, PoolModel.generate_completions);
* the Python walker of analyzer.py (leave_Attribute, leave_Subscript,
  leave_Assign, leave_AnnAssign, check_depends, check_super_call, ignored);
* the XML walker of analyzer.py (analyze skeleton, analyze_record_start,
  ignored).

Machine integers do not occur; line numbers are Nat.  Python exceptions that
escape a function (KeyError, NameError, SyntaxError, UnknownModelException)
are modelled with Except; Python dicts keyed by strings are association
lists with first-match lookup.
-/

/-- Characters of a string; Python style helpers operating on char lists so
that all definitions reduce inside the kernel. -/
def strChars (s : String) : List Char := s.data

/-- Substring containment test, mirroring the Python `in` operator on str. -/
def listIsSub (needle : List Char) : List Char → Bool
  | [] => needle.isEmpty
  | c :: rest => needle.isPrefixOf (c :: rest) || listIsSub needle rest

/-- Python `needle in hay` for strings. -/
def strContainsSub (hay needle : String) : Bool :=
  listIsSub needle.data hay.data

/-- Python `s.startswith(p)`. -/
def strStartsWith (s p : String) : Bool :=
  p.data.isPrefixOf s.data

/-- Python `s[n:]` (drop the first n characters). -/
def strDrop (s : String) (n : Nat) : String :=
  ⟨s.data.drop n⟩

/-- Auxiliary for splitting a string on the dot character. -/
def splitOnDotAux : List Char → List Char → List String
  | [], acc => [⟨acc.reverse⟩]
  | c :: rest, acc =>
      if c = '.' then ⟨acc.reverse⟩ :: splitOnDotAux rest []
      else splitOnDotAux rest (c :: acc)

/-- Python `s.split(".")` (always returns at least one piece). -/
def splitOnDot (s : String) : List String := splitOnDotAux s.data []

/-- Python `s.lstrip().startswith(p)` as used by the ignored overrides. -/
def lstripStartsWith (s p : String) : Bool :=
  p.data.isPrefixOf (s.data.dropWhile Char.isWhitespace)

/-! ### Diagnostic model (tools.py) -/

/-- DiagnosticSeverity values used by tools.py. -/
inductive Severity where
  | error
  | warning
  | information
deriving DecidableEq, Repr

/-- A diagnostic: stable error code, severity, start line of its position
range, and the class-specific message data (tools.py Diagnostic and its
subclasses, flattened). -/
structure Diagnostic where
  err_code : String
  severity : Severity
  line : Nat
  message_data : List (String × String)
deriving DecidableEq, Repr

def MissingRegisterInInit.init (line : Nat) : Diagnostic :=
  { err_code := "0001", severity := .warning, line := line, message_data := [] }

def SuperInvocationWithParams.init (line : Nat) : Diagnostic :=
  { err_code := "1001", severity := .information, line := line, message_data := [] }

def SuperInvocationMismatchedName.init (line : Nat) (expected_name : String) : Diagnostic :=
  { err_code := "1002", severity := .error, line := line,
    message_data := [("expected_name", expected_name)] }

def SuperWithoutParent.init (line : Nat) : Diagnostic :=
  { err_code := "1003", severity := .error, line := line, message_data := [] }

def MissingSuperCall.init (line : Nat) : Diagnostic :=
  { err_code := "1004", severity := .error, line := line, message_data := [] }

def UnknownPoolKey.init (line : Nat) (possible_values : String) : Diagnostic :=
  { err_code := "1005", severity := .error, line := line,
    message_data := [("possible_values", possible_values)] }

def UnknownModel.init (line : Nat) (unknown_name : String) : Diagnostic :=
  { err_code := "1006", severity := .error, line := line,
    message_data := [("unknown_name", unknown_name)] }

def UnknownAttribute.init (line : Nat) (model_name attr_name : String) : Diagnostic :=
  { err_code := "1007", severity := .error, line := line,
    message_data := [("model_name", model_name), ("attr_name", attr_name)] }

def ChangeVariableModel.init (line : Nat) (previous_model new_model : String) : Diagnostic :=
  { err_code := "1008", severity := .warning, line := line,
    message_data := [("previous_model", previous_model), ("new_model", new_model)] }

/-- TrytonTagNotFound is created with a fixed position at line 1. -/
def TrytonTagNotFound.init : Diagnostic :=
  { err_code := "5000", severity := .error, line := 1, message_data := [] }

/-- TrytonXmlFileUnregistered is created with a fixed position at line 1. -/
def TrytonXmlFileUnregistered.init : Diagnostic :=
  { err_code := "5001", severity := .warning, line := 1, message_data := [] }

def UnexpectedXMLTag.init (line : Nat) (tag_name : String) : Diagnostic :=
  { err_code := "5002", severity := .error, line := line,
    message_data := [("tag_name", tag_name)] }

def RecordMissingAttribute.init (line : Nat) (attr_name : String) : Diagnostic :=
  { err_code := "5003", severity := .error, line := line,
    message_data := [("attr_name", attr_name)] }

def RecordUnknownModel.init (line : Nat) (model_name : String) : Diagnostic :=
  { err_code := "5004", severity := .error, line := line,
    message_data := [("model_name", model_name)] }

def RecordUnknownField.init (line : Nat) (model_name field_name : String) : Diagnostic :=
  { err_code := "5005", severity := .error, line := line,
    message_data := [("model_name", model_name), ("field_name", field_name)] }

def RecordDuplicateId.init (line : Nat) (fs_id other_line : String) : Diagnostic :=
  { err_code := "5006", severity := .error, line := line,
    message_data := [("fs_id", fs_id), ("other_line", other_line)] }

/-! ### Pool data model (pool.py) -/

/-- PoolKind (pool.py): the two legal kinds. -/
inductive PoolKind where
  | model
  | wizard
deriving DecidableEq, Repr

/-- One entry of a PoolModel's fields dict: the field's type tag and its
optional relation target (presence of the "relation" key). -/
structure FieldData where
  ftype : String
  relation : Option String
deriving DecidableEq, Repr

/-- PoolModel (pool.py): name, kind, accessible attribute set (the attrs
set used by has_attribute), fields dict and states dict. -/
structure PoolModelData where
  name : String
  kind : PoolKind
  attrs : List String
  fields : List (String × FieldData)
  states : List (String × String)
deriving DecidableEq, Repr

/-- PoolModel.has_attribute. -/
def PoolModelData.has_attribute (m : PoolModelData) (a : String) : Bool :=
  m.attrs.contains a

/-- Python `a in m.fields` / `m.fields[a]` combined lookup. -/
def PoolModelData.getField (m : PoolModelData) (a : String) : Option FieldData :=
  m.fields.lookup a

/-- Pool (pool.py): referentials of models and wizards for one dependency
key.  Unfetched versus fetched proxies are not distinguished: fetching is
memoized and pure in this embedding. -/
structure Pool where
  models : List (String × PoolModelData)
  wizards : List (String × PoolModelData)
deriving Repr

/-- Pool.get, returning none where the Python code raises
UnknownModelException (a KeyError). -/
def Pool.get? (p : Pool) (name : String) (kind : PoolKind) : Option PoolModelData :=
  (match kind with
    | PoolKind.model => p.models
    | PoolKind.wizard => p.wizards).lookup name

/-! ### Name-keyed binding environment of PythonAnalyzer -/

/-- Python dict update d[k] = v for a string-keyed association list. -/
def assocSet (l : List (String × PoolModelData)) (k : String) (v : PoolModelData) :
    List (String × PoolModelData) :=
  (k, v) :: l.filter (fun p => p.1 != k)

/-- Python d.pop(k, None). -/
def assocPop (l : List (String × PoolModelData)) (k : String) :
    List (String × PoolModelData) :=
  l.filter (fun p => p.1 != k)

/-- The per-function mutable state of PythonAnalyzer: the two binding maps
(keyed here by variable name; node-keyed entries are handled by the
recursive expression walker below) and the set of Pool() variables. -/
structure Env where
  node_mappings : List (String × PoolModelData)
  node_list_mappings : List (String × PoolModelData)
  function_pool_vars : List String
deriving Repr

/-- visit_FunctionDef seeding: self and cls are bound to the class model
when the class metadata carries one. -/
def functionEntryEnv (classModel : Option PoolModelData) : Env :=
  match classModel with
  | some m => { node_mappings := [("self", m), ("cls", m)],
                node_list_mappings := [], function_pool_vars := [] }
  | none => { node_mappings := [], node_list_mappings := [], function_pool_vars := [] }

/-! ### Expression walker: leave_Attribute and leave_Subscript

The CST walker writes the inferred model of an inner node into a
node-identity-keyed dict; the only reader is the node's direct consumer.
The embedding therefore returns each expression's single-record and
sequence bindings directly from a recursive evaluation, which visits the
same nodes in the same order as the depth-first traversal. -/

/-- The fragment of Python expressions the typed walker interprets:
names, attribute accesses and Index/Slice subscripts. -/
inductive PyExpr where
  | name (value : String)
  | attribute (value : PyExpr) (attr : String) (line : Nat)
  | subscript (value : PyExpr)
deriving Repr

/-- Result of walking one expression: its single-record binding, its
sequence binding, and the diagnostics emitted while walking it. -/
structure ExprInfo where
  single : Option PoolModelData
  listv : Option PoolModelData
  diags : List Diagnostic
deriving Repr

/-- leave_Attribute (analyzer.py): check the attribute against the model of
the receiver, then extend the bindings through relation fields or wizard
states.  The uncaught UnknownModelException raised by Pool.get on a
dangling relation target is the error case. -/
def leave_Attribute (pool : Option Pool) (valueSingle : Option PoolModelData)
    (attr : String) (line : Nat) :
    Except String (Option PoolModelData × Option PoolModelData × List Diagnostic) :=
  match valueSingle with
  | none => Except.ok (none, none, [])
  | some model =>
    let diags := if model.has_attribute attr then []
      else [UnknownAttribute.init line model.name attr]
    match pool with
    | none => Except.ok (none, none, diags)
    | some pool =>
      match model.kind with
      | PoolKind.model =>
        match model.getField attr with
        | none => Except.ok (none, none, diags)
        | some field =>
          match field.relation with
          | none => Except.ok (none, none, diags)
          | some rel =>
            match pool.get? rel PoolKind.model with
            | none => Except.error "UnknownModelException"
            | some target =>
              if field.ftype == "many2one" then
                Except.ok (some target, none, diags)
              else
                Except.ok (none, some target, diags)
      | PoolKind.wizard =>
        match model.states.lookup attr with
        | none => Except.ok (none, none, diags)
        | some rel =>
          match pool.get? rel PoolKind.model with
          | none => Except.error "UnknownModelException"
          | some target => Except.ok (some target, none, diags)

/-- Depth-first evaluation of an expression, mirroring the visitor order:
a Name reads the name-keyed maps (get_type and get_list_type), an
Attribute applies leave_Attribute to its receiver's single binding, an
Index or Slice Subscript applies leave_Subscript to its receiver's
sequence binding. -/
def evalExpr (pool : Option Pool) (env : Env) : PyExpr → Except String ExprInfo
  | PyExpr.name s =>
      Except.ok { single := env.node_mappings.lookup s,
                  listv := env.node_list_mappings.lookup s, diags := [] }
  | PyExpr.attribute v a line => do
      let vi ← evalExpr pool env v
      let (s, l, d) ← leave_Attribute pool vi.single a line
      Except.ok { single := s, listv := l, diags := vi.diags ++ d }
  | PyExpr.subscript v => do
      let vi ← evalExpr pool env v
      Except.ok { single := vi.listv, listv := none, diags := vi.diags }

/-! ### Concrete fixture for the author and book schema -/

/-- The author entity model of the worked example: a to-many field books
targeting book. -/
def authorModel : PoolModelData :=
  { name := "author", kind := PoolKind.model,
    attrs := ["name", "books", "test_function"],
    fields := [("name", { ftype := "char", relation := none }),
               ("books", { ftype := "one2many", relation := some "book" })],
    states := [] }

/-- The book entity model of the worked example: a to-one field author
targeting author. -/
def bookModel : PoolModelData :=
  { name := "book", kind := PoolKind.model,
    attrs := ["name", "author"],
    fields := [("name", { ftype := "char", relation := none }),
               ("author", { ftype := "many2one", relation := some "author" })],
    states := [] }

/-- The pool holding the two example models. -/
def examplePool : Pool :=
  { models := [("author", authorModel), ("book", bookModel)], wizards := [] }

/-- The expression self.books[0].author. -/
def goodChainExpr : PyExpr :=
  PyExpr.attribute (PyExpr.subscript (PyExpr.attribute (PyExpr.name "self") "books" 3)) "author" 3

/-- The expression self.books[0].missingField. -/
def badChainExpr : PyExpr :=
  PyExpr.attribute (PyExpr.subscript (PyExpr.attribute (PyExpr.name "self") "books" 4)) "missingField" 4

/-! ### Assignment propagation: leave_Assign and leave_AnnAssign -/

/-- The first assignment target of an Assign statement, as classified by the
matchers of leave_Assign: a plain Name, a Tuple all of whose elements are
Names (at least one), or anything else. -/
inductive AssignTarget where
  | mono (name : String)
  | multi (names : List String)
  | otherTarget
deriving Repr

/-- leave_Assign (analyzer.py): pure binding update, no diagnostics.  The
value's inferred single and sequence models (results of get_type and
get_list_type on the assigned expression) are passed in;
valueIsPoolCall models the check_is_pool matcher on a value of the
shape Pool(). -/
def leave_Assign (env : Env) (target : AssignTarget) (valueIsPoolCall : Bool)
    (valueSingle valueList : Option PoolModelData) : Env × List Diagnostic :=
  match target, valueIsPoolCall with
  | AssignTarget.mono n, true =>
      ({ env with function_pool_vars := n :: env.function_pool_vars }, [])
  | _, _ =>
    match target with
    | AssignTarget.otherTarget => (env, [])
    | AssignTarget.mono n =>
      match valueSingle with
      | some vt => ({ env with node_mappings := assocSet env.node_mappings n vt }, [])
      | none =>
        match valueList with
        | some vt => ({ env with node_list_mappings := assocSet env.node_list_mappings n vt }, [])
        | none =>
            ({ env with node_mappings := assocPop env.node_mappings n,
                        node_list_mappings := assocPop env.node_list_mappings n }, [])
    | AssignTarget.multi names =>
      match valueSingle with
      | some _ =>
          (names.foldl (fun e n =>
            { e with node_mappings := assocPop e.node_mappings n,
                     node_list_mappings := assocPop e.node_list_mappings n }) env, [])
      | none =>
        match valueList with
        | some vt =>
            (names.foldl (fun e n =>
              { e with node_mappings := assocSet e.node_mappings n vt }) env, [])
        | none =>
            (names.foldl (fun e n =>
              { e with node_mappings := assocPop e.node_mappings n,
                       node_list_mappings := assocPop e.node_list_mappings n }) env, [])

/-- What visit_AnnAssign recorded for an AnnAssign node from its annotation:
nothing, a single-record model (Record annotations) or a sequence model
(Records annotations). -/
inductive AnnBinding where
  | noneB
  | single (m : PoolModelData)
  | listB (m : PoolModelData)
deriving Repr

/-- leave_AnnAssign (analyzer.py).  The target is some (name, line of the
target node) when the target is a plain Name.  In the sequence branch the
source reads node_mappings[node] for the previous model although the node
was recorded in node_list_mappings, so a conflicting sequence value raises
KeyError (the error case). -/
def leave_AnnAssign (env : Env) (target : Option (String × Nat)) (ann : AnnBinding)
    (valueSingle valueList : Option PoolModelData) :
    Except String (Env × List Diagnostic) :=
  match target with
  | none => Except.ok (env, [])
  | some (name, line) =>
    match valueSingle, ann with
    | some vt, AnnBinding.single a =>
        let d := if vt ≠ a then [ChangeVariableModel.init line a.name vt.name] else []
        Except.ok ({ env with node_mappings := assocSet env.node_mappings name vt }, d)
    | some vt, _ =>
        Except.ok ({ env with node_mappings := assocSet env.node_mappings name vt }, [])
    | none, AnnBinding.single a =>
        Except.ok ({ env with node_mappings := assocSet env.node_mappings name a }, [])
    | none, ann =>
      match valueList, ann with
      | some vt, AnnBinding.listB a =>
          if vt ≠ a then Except.error "KeyError"
          else Except.ok ({ env with node_list_mappings := assocSet env.node_list_mappings name vt }, [])
      | some vt, _ =>
          Except.ok ({ env with node_list_mappings := assocSet env.node_list_mappings name vt }, [])
      | none, AnnBinding.listB a =>
          Except.ok ({ env with node_list_mappings := assocSet env.node_list_mappings name a }, [])
      | none, _ =>
          Except.ok ({ env with node_mappings := assocPop env.node_mappings name,
                                node_list_mappings := assocPop env.node_list_mappings name }, [])

/-! ### check_depends (analyzer.py) -/

/-- One element of the list of a methods=[...] style keyword argument. -/
inductive DependsItem where
  | str (value : String)
  | nonStr
deriving Repr

/-- One argument of a fields.depends decorator, as classified by the two
matchers of check_depends: a plain string, a list-valued keyword
argument, or anything else (skipped). -/
inductive DependsArg where
  | str (value : String) (line : Nat)
  | listKw (keyword : String) (items : List DependsItem) (line : Nat)
  | otherArg
deriving Repr

/-- The local variables cur_model and field_name of check_depends, which
are unassigned (none) until a plain string argument has been processed. -/
structure DependsLocals where
  cur_model : Option PoolModelData
  field_name : Option String
deriving Repr

/-- The inner loop of check_depends over the non-final dot-separated
segments of one string entry.  Returns the traversal model, the last value
of the field_name local, the diagnostics, and whether the loop ended with
break (true) or fell through to the for-else (false).  The error case is
the KeyError raised when a many2one field has no relation key. -/
def checkDependsSegs (pool : Pool) (cur : PoolModelData) (fn0 : Option String)
    (line : Nat) : List String →
    Except String (PoolModelData × Option String × List Diagnostic × Bool)
  | [] => Except.ok (cur, fn0, [], false)
  | seg :: rest =>
    if strStartsWith seg "_parent_" = false then
      Except.ok (cur, some seg, [UnknownAttribute.init line cur.name seg], true)
    else
      let fn := strDrop seg 8
      match cur.getField fn with
      | none => Except.ok (cur, some fn, [UnknownAttribute.init line cur.name fn], true)
      | some field =>
        if field.ftype ≠ "many2one" then
          Except.ok (cur, some fn, [UnknownAttribute.init line cur.name fn], true)
        else
          match field.relation with
          | none => Except.error "KeyError"
          | some rel =>
            match pool.get? rel PoolKind.model with
            | none => Except.ok (cur, some fn, [UnknownModel.init line rel], true)
            | some m => checkDependsSegs pool m (some fn) line rest

/-- Processing of one plain string argument of fields.depends: split on
dots, walk the non-final segments, and on normal loop exit check the final
segment against the fields of the model reached. -/
def checkDependsStrArg (pool : Pool) (model : PoolModelData) (value : String)
    (line : Nat) : Except String (DependsLocals × List Diagnostic) := do
  let field_names := splitOnDot value
  let (c, f, d, broke) ← checkDependsSegs pool model none line field_names.dropLast
  if broke then
    Except.ok ({ cur_model := some c, field_name := f }, d)
  else
    let fn := field_names.getLastD ""
    if (c.getField fn).isSome then
      Except.ok ({ cur_model := some c, field_name := some fn }, d)
    else
      Except.ok ({ cur_model := some c, field_name := some fn },
        d ++ [UnknownAttribute.init line c.name fn])

/-- Processing of one list-valued keyword argument of fields.depends.  A
keyword other than methods emits an UnknownAttribute built from the
cur_model and field_name locals; reading either while unassigned raises
NameError (the error case). -/
def checkDependsListKw (model : PoolModelData) (loc : DependsLocals)
    (keyword : String) (items : List DependsItem) (line : Nat) :
    Except String (List Diagnostic) :=
  if keyword ≠ "methods" then
    match loc.cur_model with
    | none => Except.error "NameError"
    | some cm =>
      match loc.field_name with
      | none => Except.error "NameError"
      | some fn => Except.ok [UnknownAttribute.init line cm.name fn]
  else
    Except.ok (items.filterMap fun it =>
      match it with
      | DependsItem.str s =>
          if model.has_attribute s then none
          else some (UnknownAttribute.init line model.name s)
      | DependsItem.nonStr => none)

/-- The argument loop of check_depends, threading the cur_model and
field_name locals (Python function scope: they persist across arguments
and across the fields.depends decorators of one function). -/
def checkDependsGo (pool : Pool) (model : PoolModelData) :
    DependsLocals → List DependsArg → Except String (List Diagnostic)
  | _, [] => Except.ok []
  | _loc, DependsArg.str v line :: rest => do
      let (loc2, d) ← checkDependsStrArg pool model v line
      let d2 ← checkDependsGo pool model loc2 rest
      Except.ok (d ++ d2)
  | loc, DependsArg.listKw kw items line :: rest => do
      let d ← checkDependsListKw model loc kw items line
      let d2 ← checkDependsGo pool model loc rest
      Except.ok (d ++ d2)
  | loc, DependsArg.otherArg :: rest => checkDependsGo pool model loc rest

/-- check_depends (analyzer.py) for a class bound to a model, over the
concatenated arguments of the function's fields.depends decorators. -/
def check_depends (pool : Pool) (model : PoolModelData) (args : List DependsArg) :
    Except String (List Diagnostic) :=
  checkDependsGo pool model { cur_model := none, field_name := none } args

/-! ### check_super_call (analyzer.py) -/

/-- The details part of one entry of get_super_information: None, the
string no_code, or a definition site.  For a site, parse_ok models a
loadable parent file, found_match the FunctionFinder locating the parent
function, and suppressed an inline marker for code 1004 on the parent
definition. -/
inductive SuperDetails where
  | absent
  | noCode
  | site (parse_ok found_match suppressed : Bool)
deriving DecidableEq, Repr

/-- Python truthiness of the details value (None is falsy). -/
def SuperDetails.isPresent : SuperDetails → Bool
  | SuperDetails.absent => false
  | _ => true

/-- One entry of the override chain: whether the analyzed class's import
path occurs in the entry's qualified class name, and the details. -/
structure ChainEntry where
  matchesBase : Bool
  details : SuperDetails
deriving DecidableEq, Repr

/-- One super().name(...) call found in the function body. -/
structure SuperCallNode where
  hasArgs : Bool
  attrName : String
  line : Nat
deriving Repr

/-- The chain loop of check_super_call: thread found_base and found_super
over the entries, emitting at most one MissingSuperCall and breaking at
the first decisive entry; returns the diagnostics and the final
found_super. -/
def superScan (has_super : Bool) (fnLine : Nat) :
    Bool → Bool → List ChainEntry → List Diagnostic × Bool
  | _, found_super, [] => ([], found_super)
  | found_base, found_super, e :: rest =>
    if e.matchesBase then
      superScan has_super fnLine true found_super rest
    else if found_base && !has_super && e.details.isPresent then
      match e.details with
      | SuperDetails.noCode => ([], found_super)
      | SuperDetails.site p m s =>
          ((if p && m && !s then [MissingSuperCall.init fnLine] else []), found_super)
      | SuperDetails.absent => ([], found_super)
    else if found_base && has_super && !found_super && e.details.isPresent then
      superScan has_super fnLine found_base true rest
    else
      superScan has_super fnLine found_base found_super rest

/-- The per-call style diagnostics of check_super_call (explicit parent
arguments, name mismatch with the enclosing function). -/
def superStyleDiags (fnName : String) (calls : List SuperCallNode) : List Diagnostic :=
  (calls.map (fun c =>
    (if c.hasArgs then [SuperInvocationWithParams.init c.line] else []) ++
    (if c.attrName != fnName then [SuperInvocationMismatchedName.init c.line fnName]
     else []))).flatten

/-- check_super_call (analyzer.py).  The per-call style checks run first;
the chain checks run only when the class is bound to a model (modelChain
is some chain in that case). -/
def check_super_call (fnName : String) (fnLine : Nat) (calls : List SuperCallNode)
    (modelChain : Option (List ChainEntry)) : List Diagnostic :=
  let d1 := superStyleDiags fnName calls
  match modelChain with
  | none => d1
  | some entries =>
    let has_super := !calls.isEmpty
    let scanned := superScan has_super fnLine false false entries
    d1 ++ scanned.1 ++
      (if has_super && !scanned.2 then [SuperWithoutParent.init fnLine] else [])

/-! ### Suppression: ignored and add_diagnostic -/

/-- Analyzer.ignored: the marker for the code occurs anywhere on the
diagnostic's start line (1-based; the line always exists in the file, so
the out-of-range default is never exercised). -/
def Analyzer.ignored (raw_lines : List String) (err_code : String)
    (line_number : Nat) : Bool :=
  strContainsSub (raw_lines.getD (line_number - 1) "")
    ("IGNORE-TRYTON-LS-" ++ err_code)

/-- PythonAnalyzer.ignored: additionally accept the marker on the previous
line when that line is a comment line (lstrip starts with a hash). -/
def PythonAnalyzer.ignored (raw_lines : List String) (err_code : String)
    (line_number : Nat) : Bool :=
  Analyzer.ignored raw_lines err_code line_number ||
  (decide (line_number > 1) &&
    lstripStartsWith (raw_lines.getD (line_number - 2) "") "#" &&
    strContainsSub (raw_lines.getD (line_number - 2) "")
      ("IGNORE-TRYTON-LS-" ++ err_code))

/-- XMLAnalyzer.ignored: same as the Python override, with an XML comment
opener instead of a hash. -/
def XMLAnalyzer.ignored (raw_lines : List String) (err_code : String)
    (line_number : Nat) : Bool :=
  Analyzer.ignored raw_lines err_code line_number ||
  (decide (line_number > 1) &&
    lstripStartsWith (raw_lines.getD (line_number - 2) "") "<!--" &&
    strContainsSub (raw_lines.getD (line_number - 2) "")
      ("IGNORE-TRYTON-LS-" ++ err_code))

/-- Analyzer.add_diagnostic: append unless the diagnostic is falsy (None)
or its code is ignored at its start line.  Parametrized by the ignored
predicate so the three analyzer variants share the definition. -/
def add_diagnostic (ignoredF : String → Nat → Bool)
    (diagnostics : List Diagnostic) (d : Option Diagnostic) : List Diagnostic :=
  match d with
  | none => diagnostics
  | some d =>
      if ignoredF d.err_code d.line then diagnostics else diagnostics ++ [d]

/-- A sequence of add_diagnostic calls starting from the empty list. -/
def emitAll (ignoredF : String → Nat → Bool)
    (ds : List (Option Diagnostic)) : List Diagnostic :=
  ds.foldl (add_diagnostic ignoredF) []

/-! ### Module registration scan (pool.py Module) -/

/-- One Pool.register(...) statement inside the register function of a
module's entry point: its positional class references as (file, class)
pairs, the depends keyword constants, and the optional type_ keyword. -/
structure RegisterStmt where
  imports : List (String × String)
  depends : List String
  type_kw : Option String
deriving Repr

/-- A parse attempt: ast.parse either yields a value or raises
SyntaxError. -/
inductive ParseResult (α : Type) where
  | ok (val : α)
  | syntaxError
deriving Repr

/-- Sorted module-name tuple (Python sorted on str). -/
def sortStrings (l : List String) : List String :=
  l.mergeSort (fun a b => !decide (b < a))

/-- Python dict update for the result of the registration scan: overwrite
in place on an existing key, append otherwise. -/
def updEntry (result : List ((String × String) × (String × List String)))
    (k : String × String) (v : String × List String) :
    List ((String × String) × (String × List String)) :=
  if (result.lookup k).isSome then
    result.map (fun p => if p.1 = k then (k, v) else p)
  else
    result ++ [(k, v)]

/-- The statement loop of get_modules_per_class, threading the type_
local (only assigned when a type_ keyword is present; reading it in the
result comprehension while unassigned raises NameError, which only
happens when the comprehension is non-empty). -/
def registerWalk (moduleName : String) : Option String →
    List ((String × String) × (String × List String)) → List RegisterStmt →
    Except String (List ((String × String) × (String × List String)))
  | _, result, [] => Except.ok result
  | type_, result, stmt :: rest =>
    let modules := moduleName :: stmt.depends
    let type2 := match stmt.type_kw with
      | some t => some t
      | none => type_
    match stmt.imports with
    | [] => registerWalk moduleName type2 result rest
    | imps =>
      match type2 with
      | none => Except.error "NameError"
      | some t =>
          registerWalk moduleName type2
            (imps.foldl (fun r fc => updEntry r fc (t, sortStrings modules)) result)
            rest

/-- Module.get_modules_per_class (pool.py): parse the module's entry point
and scan its register statements.  The parse is not guarded, so a
SyntaxError propagates (the error case), aborting Module construction. -/
def getModulesPerClass (moduleName : String)
    (parsedInit : ParseResult (List RegisterStmt)) :
    Except String (List ((String × String) × (String × List String))) :=
  match parsedInit with
  | ParseResult.syntaxError => Except.error "SyntaxError"
  | ParseResult.ok stmts => registerWalk moduleName none [] stmts

/-! ### XML record analysis (analyzer.py XMLAnalyzer) -/

/-- A record element: its optional model and id attributes and its source
line. -/
structure RecordNode where
  model_attr : Option String
  id_attr : Option String
  sourceline : Nat
deriving Repr

/-- The XMLAnalyzer state read and written by analyze_record_start. -/
structure XmlRecState where
  fs_ids : List (String × Nat)
  current_pool : Option Pool
  current_model : Option PoolModelData
deriving Repr

/-- The id attribute handling of analyze_record_start: a missing id is
reported, a seen id yields RecordDuplicateId citing the recorded first
occurrence line, a fresh id records its line. -/
def recordIdStep (fs_ids : List (String × Nat)) (node : RecordNode) :
    List (String × Nat) × List Diagnostic :=
  match node.id_attr with
  | none => (fs_ids, [RecordMissingAttribute.init node.sourceline "id"])
  | some i =>
    match fs_ids.lookup i with
    | some first =>
        (fs_ids, [RecordDuplicateId.init node.sourceline i (toString first)])
    | none => (fs_ids ++ [(i, node.sourceline)], [])

/-- The model resolution tail of analyze_record_start: with a current pool
and a truthy model attribute, resolve it, updating current_model or
reporting RecordUnknownModel. -/
def recordModelStep (st2 : XmlRecState) (cp : Option Pool) (node : RecordNode) :
    XmlRecState × List Diagnostic :=
  match cp, node.model_attr with
  | some pool, some mname =>
    if mname = "" then (st2, [])
    else
      match pool.get? mname PoolKind.model with
      | none => (st2, [RecordUnknownModel.init node.sourceline mname])
      | some m => ({ st2 with current_model := some m }, [])
  | _, _ => (st2, [])

/-- analyze_record_start (analyzer.py): depth check, required attributes,
duplicate id bookkeeping (first occurrence line is kept), then model
resolution against the current pool.  depth is the tag stack length at
the time of analysis. -/
def analyze_record_start (st : XmlRecState) (depth : Nat) (node : RecordNode) :
    XmlRecState × List Diagnostic :=
  let d1 := if depth ≠ 3 then [UnexpectedXMLTag.init node.sourceline "record"] else []
  let d2 := if node.model_attr.isNone then
      [RecordMissingAttribute.init node.sourceline "model"] else []
  let idStep := recordIdStep st.fs_ids node
  let base := d1 ++ d2 ++ idStep.2
  let st2 := { st with fs_ids := idStep.1 }
  let modelStep := recordModelStep st2 st.current_pool node
  (modelStep.1, base ++ modelStep.2)

/-- The record events of one analysis pass, each with the tag stack depth
at which the record element occurred. -/
def analyzeRecords (st : XmlRecState) : List (Nat × RecordNode) → XmlRecState × List Diagnostic
  | [] => (st, [])
  | (depth, n) :: rest =>
    let step := analyze_record_start st depth n
    let restR := analyzeRecords step.1 rest
    (restR.1, step.2 ++ restR.2)

/-! ### Completions (pool.py PoolModel.generate_completions) -/

/-- CompletionItemKind values produced by generate_completions. -/
inductive CompletionItemKind where
  | Field
  | Method
deriving DecidableEq, Repr

/-- An lsp CompletionItem as built by generate_completions. -/
structure CompletionItem where
  label : String
  kind : CompletionItemKind
  detail : Option String
  documentation : Option String
deriving DecidableEq, Repr

/-- One member record of the completion payload, a tagged variant per the
three member types the loop handles.  The selection list holds the first
components of the selection pairs. -/
inductive CompletionInfo where
  | field (string_ : String) (function_ : Bool) (selection : List String)
      (domain : Option String) (states_ : Option String) (class_name : String)
  | state (class_name : String)
  | method (documentation : String)
deriving Repr

/-- The documentation string assembled for a field completion. -/
def buildFieldDoc (s : String) (func : Bool) (selection : List String)
    (domain states_ : Option String) : String :=
  let d1 := s ++ (if func then " [Function]" else "")
  let d2 := match selection with
    | [] => d1
    | xs => d1 ++ "\n\nSelection:\n\n" ++ String.intercalate ", " xs
  let d3 := match domain with
    | none => d2
    | some dm => d2 ++ "\n\nDomain:\n\n" ++ dm
  match states_ with
  | none => d3
  | some st => d3 ++ "\n\nStates: \n\n" ++ st

/-- The sort key of the final ranking: 0 for Field items, 10 otherwise. -/
def completionKey (x : CompletionItem) : Nat :=
  if x.kind = CompletionItemKind.Field then 0 else 10

/-- The CompletionItem appended by the loop of generate_completions for
one member of the completion payload: fields and states become Field items
(states carry no documentation), methods become Method items. -/
def completionItemOf (kv : String × CompletionInfo) : CompletionItem :=
  match kv.2 with
  | CompletionInfo.field s f sel dom st cn =>
      { label := kv.1, kind := CompletionItemKind.Field, detail := some cn,
        documentation := some (buildFieldDoc s f sel dom st) }
  | CompletionInfo.state cn =>
      { label := kv.1, kind := CompletionItemKind.Field, detail := some cn,
        documentation := none }
  | CompletionInfo.method doc =>
      { label := kv.1, kind := CompletionItemKind.Method, detail := none,
        documentation := some doc }

/-- PoolModel.generate_completions: build one item per member of the
completion payload, then sort with the Field-first key (list.sort is a
stable sort; mergeSort models it). -/
def generate_completions (completions : List (String × CompletionInfo)) :
    List CompletionItem :=
  (completions.map completionItemOf).mergeSort
    (fun a b => decide (completionKey a ≤ completionKey b))

/-- PoolManager.get_completions: when the completioner captured a target
model its completion payload is ranked, otherwise the result is empty. -/
def get_completions (target_model : Option (List (String × CompletionInfo))) :
    List CompletionItem :=
  match target_model with
  | none => []
  | some infos => generate_completions infos

/-! ### XMLAnalyzer.analyze skeleton (wrapper-tag diagnostics) -/

/-- XMLAnalyzer.analyze: the walk's diagnostics are routed through
add_diagnostic (and hence the ignored filter), while the two wrapper-tag
mismatch diagnostics are appended to the list directly afterwards. -/
def xmlAnalyze (ignoredF : String → Nat → Bool)
    (is_tryton_xml found_tryton_tag : Bool)
    (walkDiags : List (Option Diagnostic)) : List Diagnostic :=
  let ds := emitAll ignoredF walkDiags
  (ds ++ (if is_tryton_xml && !found_tryton_tag then [TrytonTagNotFound.init] else []))
    ++ (if !is_tryton_xml && found_tryton_tag then [TrytonXmlFileUnregistered.init] else [])

/-! ### Spec-side predicates used to state claims -/

/-- The inline marker for a code occurs on the (1-based) line k, following
the claim's wording. -/
def markerOnLine (raw_lines : List String) (code : String) (k : Nat) : Bool :=
  strContainsSub (raw_lines.getD (k - 1) "") ("IGNORE-TRYTON-LS-" ++ code)

/-- Line k is a comment line (leading whitespace then a hash), following
the claim's wording for the line immediately above a diagnostic. -/
def commentLine (raw_lines : List String) (k : Nat) : Bool :=
  lstripStartsWith (raw_lines.getD (k - 1) "") "#"

/-- Number of diagnostics with a given code. -/
def codeCount (ds : List Diagnostic) (code : String) : Nat :=
  (ds.filter (fun d => d.err_code == code)).length

/-- A field table is well formed when every many2one field carries its
relation key (true of the schema payloads the introspection companion
produces for entity models). -/
def fieldsWf (fields : List (String × FieldData)) : Bool :=
  fields.all (fun f => f.2.ftype != "many2one" || f.2.relation.isSome)

def modelWf (m : PoolModelData) : Bool := fieldsWf m.fields

def poolWf (p : Pool) : Bool := p.models.all (fun q => modelWf q.2)

/-- Refinement side, following the amended claim's wording: the traversal
model reached after the non-final segments of a dependency entry, when
every non-final segment carries the to-one-relation prefix marker and
names an existing to-one field of the current traversal model whose
target resolves in the pool; none otherwise. -/
def specReach (pool : Pool) : PoolModelData → List String → Option PoolModelData
  | cur, [] => some cur
  | cur, seg :: rest =>
      if strStartsWith seg "_parent_" then
        match cur.getField (strDrop seg 8) with
        | some f =>
            if f.ftype == "many2one" then
              match f.relation with
              | some rel =>
                  (match pool.get? rel PoolKind.model with
                   | some m => specReach pool m rest
                   | none => none)
              | none => none
            else none
        | none => none
      else none

/-- Refinement side, following the amended claim's wording: a dependency
entry is valid when its non-final segments all traverse to-one relations
and its final segment is an existing field of the model reached. -/
def dependsEntrySpec (pool : Pool) (model : PoolModelData) (v : String) : Bool :=
  match specReach pool model (splitOnDot v).dropLast with
  | some c => (c.getField ((splitOnDot v).getLastD "")).isSome
  | none => false

/-- The diagnostics of one string entry (empty in the crash case, which
well-formed schemas rule out). -/
def strArgDiags (pool : Pool) (model : PoolModelData) (v : String) (line : Nat) :
    List Diagnostic :=
  match checkDependsStrArg pool model v line with
  | Except.ok (_, d) => d
  | Except.error _ => []

/-- The RecordDuplicateId diagnostics of a list. -/
def dupFilter (ds : List Diagnostic) : List Diagnostic :=
  ds.filter (fun d => d.err_code == "5006")

/-- The identifier attributes present in a list of record events. -/
def idsOf (rs : List (Nat × RecordNode)) : List String :=
  rs.filterMap (fun p => p.2.id_attr)

/-! ### Helper lemmas -/

theorem foldl_add_diagnostic (ignoredF : String → Nat → Bool) :
    ∀ (ds : List (Option Diagnostic)) (acc : List Diagnostic),
      ds.foldl (add_diagnostic ignoredF) acc =
        acc ++ (ds.filterMap id).filter (fun d => !ignoredF d.err_code d.line)
  | [], acc => by simp
  | none :: rest, acc => by
      simpa [add_diagnostic] using foldl_add_diagnostic ignoredF rest acc
  | some d :: rest, acc => by
      by_cases h : ignoredF d.err_code d.line
      · simp [add_diagnostic, h, foldl_add_diagnostic ignoredF rest acc]
      · simp [add_diagnostic, h, foldl_add_diagnostic ignoredF rest (acc ++ [d])]

theorem emitAll_eq_filter (ignoredF : String → Nat → Bool)
    (ds : List (Option Diagnostic)) :
    emitAll ignoredF ds =
      (ds.filterMap id).filter (fun d => !ignoredF d.err_code d.line) := by
  simpa [emitAll] using foldl_add_diagnostic ignoredF ds []

theorem registerWalk_ok (moduleName : String) (stmts : List RegisterStmt) :
    ∀ (type_ : Option String) (acc : List ((String × String) × (String × List String))),
      (∀ s ∈ stmts, s.imports = [] ∨ s.type_kw.isSome) →
      (registerWalk moduleName type_ acc stmts).isOk = true := by
  induction stmts with
  | nil => intro type_ acc _; rfl
  | cons stmt rest ih =>
      intro type_ acc h
      have hrest : ∀ s ∈ rest, s.imports = [] ∨ s.type_kw.isSome :=
        fun s hs => h s (List.mem_cons_of_mem _ hs)
      rcases h stmt (List.mem_cons_self _ _) with he | ht
      · rw [registerWalk, he]
        exact ih _ _ hrest
      · rw [registerWalk]
        rcases hkw : stmt.type_kw with _ | t
        · rw [hkw] at ht; simp at ht
        · cases himp : stmt.imports with
          | nil => exact ih _ _ hrest
          | cons i is => exact ih _ _ hrest

/-! ### Claim theorems -/

/-- C2 (confirmed): with entity model author having to-many field books
targeting book, walking self.books[0].author in a method of a class bound
to author yields zero diagnostics, with the stated intermediate bindings
(self to author, self.books to a sequence of book, the subscript to a
single book, the final access back to author); walking
self.books[0].missingField yields exactly one UnknownAttribute citing
model book and member missingField. -/
theorem c2_attribute_chain :
    evalExpr (some examplePool) (functionEntryEnv (some authorModel))
        (PyExpr.name "self") =
      Except.ok { single := some authorModel, listv := none, diags := [] } ∧
    evalExpr (some examplePool) (functionEntryEnv (some authorModel))
        (PyExpr.attribute (PyExpr.name "self") "books" 3) =
      Except.ok { single := none, listv := some bookModel, diags := [] } ∧
    evalExpr (some examplePool) (functionEntryEnv (some authorModel))
        (PyExpr.subscript (PyExpr.attribute (PyExpr.name "self") "books" 3)) =
      Except.ok { single := some bookModel, listv := none, diags := [] } ∧
    evalExpr (some examplePool) (functionEntryEnv (some authorModel)) goodChainExpr =
      Except.ok { single := some authorModel, listv := none, diags := [] } ∧
    evalExpr (some examplePool) (functionEntryEnv (some authorModel)) badChainExpr =
      Except.ok { single := none, listv := none,
                  diags := [UnknownAttribute.init 4 "book" "missingField"] } :=
  ⟨rfl, rfl, rfl, rfl, rfl⟩

/-- C9 (confirmed): a fields.depends decorator whose arguments consist of a
list-valued keyword argument with a keyword other than methods, with no
earlier plain string argument, makes check_depends read the unassigned
locals cur_model and field_name and the analysis crashes with NameError
instead of emitting a diagnostic. -/
theorem c9_depends_nameerror :
    check_depends examplePool authorModel
        [DependsArg.listKw "foo" [DependsItem.str "x"] 7] =
      Except.error "NameError" := rfl

/-- C1 counterexample: a variable bound to model author and then reassigned
by a plain assignment to a value inferred as model book produces zero
diagnostics (in particular zero ChangeVariableModel), not exactly one; the
binding is silently replaced. -/
theorem c1_plain_assign_counterexample :
    (leave_Assign
        { node_mappings := [("x", authorModel)], node_list_mappings := [],
          function_pool_vars := [] }
        (AssignTarget.mono "x") false (some bookModel) none).2 = [] ∧
    (leave_Assign
        { node_mappings := [("x", authorModel)], node_list_mappings := [],
          function_pool_vars := [] }
        (AssignTarget.mono "x") false (some bookModel) none).1.node_mappings.lookup "x" =
      some bookModel :=
  ⟨rfl, rfl⟩

/-- C1 (corrected): plain assignments never emit any diagnostic (the model
change is silent); the ChangeVariableModel warning is emitted exactly once,
at the reassignment target, only by an annotated assignment whose
annotation binds single-record model A while the assigned value's inferred
single-record model is B different from A. -/
theorem c1_change_variable_model_amended
    (env env2 : Env) (target : AssignTarget) (ip : Bool)
    (vs vl vl2 : Option PoolModelData) (name : String) (line : Nat)
    (a b : PoolModelData) (h : a ≠ b) :
    (leave_Assign env2 target ip vs vl2).2 = [] ∧
    leave_AnnAssign env (some (name, line)) (AnnBinding.single a) (some b) vl =
      Except.ok ({ env with node_mappings := assocSet env.node_mappings name b },
        [ChangeVariableModel.init line a.name b.name]) := by
  constructor
  · cases target <;> cases ip <;> cases vs <;> cases vl2 <;> rfl
  · simp [leave_AnnAssign, Ne.symm h]

/-- Witness for the amended C1 theorem at a concrete reassignment. -/
theorem c1_change_variable_model_amended_witness :
    authorModel ≠ bookModel ∧
    ((leave_Assign (functionEntryEnv none) (AssignTarget.mono "x") false
        (some bookModel) none).2 = [] ∧
      leave_AnnAssign (functionEntryEnv (some authorModel)) (some ("y", 12))
          (AnnBinding.single authorModel) (some bookModel) none =
        Except.ok
          ({ functionEntryEnv (some authorModel) with
              node_mappings :=
                assocSet (functionEntryEnv (some authorModel)).node_mappings "y" bookModel },
            [ChangeVariableModel.init 12 "author" "book"])) :=
  ⟨by decide,
    c1_change_variable_model_amended (functionEntryEnv (some authorModel))
      (functionEntryEnv none) (AssignTarget.mono "x") false (some bookModel) none
      none "y" 12 authorModel bookModel (by decide)⟩

/-- C6 counterexample: a module entry point that fails to parse makes the
registration scan raise (SyntaxError propagates out of Module
construction); the module is not treated as having no registrations. -/
theorem c6_syntax_error_counterexample :
    getModulesPerClass "mymodule" ParseResult.syntaxError =
      Except.error "SyntaxError" := rfl

/-- C6 (corrected): when the module's entry point fails to parse, building
the Module Index raises (the parse failure propagates and aborts the
analysis) instead of degrading; when the entry point parses, the scan
completes without raising (given every registration statement that lists
classes carries a kind keyword), and an entry point with no registration
statements yields no registrations. -/
theorem c6_module_init_parse_amended (moduleName : String)
    (stmts : List RegisterStmt)
    (h : ∀ s ∈ stmts, s.imports = [] ∨ s.type_kw.isSome) :
    getModulesPerClass moduleName ParseResult.syntaxError =
      Except.error "SyntaxError" ∧
    (getModulesPerClass moduleName (ParseResult.ok stmts)).isOk = true ∧
    getModulesPerClass moduleName (ParseResult.ok []) = Except.ok [] :=
  ⟨rfl, registerWalk_ok moduleName stmts none [] h, rfl⟩

/-- Witness for the amended C6 theorem at a concrete registration list. -/
theorem c6_module_init_parse_amended_witness :
    getModulesPerClass "library" ParseResult.syntaxError =
      Except.error "SyntaxError" ∧
    (getModulesPerClass "library"
        (ParseResult.ok [{ imports := [("book", "Book")], depends := ["author"],
                           type_kw := some "model" }])).isOk = true ∧
    getModulesPerClass "library" (ParseResult.ok []) = Except.ok [] :=
  c6_module_init_parse_amended "library"
    [{ imports := [("book", "Book")], depends := ["author"],
       type_kw := some "model" }] (by decide)

/-- C10 (confirmed): the wrapper-tag mismatch diagnostics TrytonTagNotFound
and TrytonXmlFileUnregistered are appended to the result directly; they are
present in the analyze output for every file content, including content
carrying their inline markers, while any diagnostic routed through
add_diagnostic whose code is ignored at its line never reaches the
output of that route. -/
theorem c10_wrapper_bypass (ignoredF : String → Nat → Bool)
    (walkDiags : List (Option Diagnostic)) (d : Diagnostic)
    (h : ignoredF d.err_code d.line = true) :
    TrytonTagNotFound.init ∈ xmlAnalyze ignoredF true false walkDiags ∧
    TrytonXmlFileUnregistered.init ∈ xmlAnalyze ignoredF false true walkDiags ∧
    d ∉ emitAll ignoredF walkDiags := by
  refine ⟨by simp [xmlAnalyze], by simp [xmlAnalyze], ?_⟩
  intro hmem
  rw [emitAll_eq_filter] at hmem
  have := List.of_mem_filter hmem
  simp [h] at this

/-- Witness for C10: the marker for code 5000 on line 1 suppresses a routed
diagnostic with that code and line, but the directly appended
TrytonTagNotFound survives. -/
theorem c10_wrapper_bypass_witness :
    XMLAnalyzer.ignored ["IGNORE-TRYTON-LS-5000"] (TrytonTagNotFound.init).err_code
        (TrytonTagNotFound.init).line = true ∧
    (TrytonTagNotFound.init ∈
        xmlAnalyze (XMLAnalyzer.ignored ["IGNORE-TRYTON-LS-5000"]) true false
          [some TrytonTagNotFound.init] ∧
      TrytonXmlFileUnregistered.init ∈
        xmlAnalyze (XMLAnalyzer.ignored ["IGNORE-TRYTON-LS-5000"]) false true
          [some TrytonTagNotFound.init] ∧
      TrytonTagNotFound.init ∉
        emitAll (XMLAnalyzer.ignored ["IGNORE-TRYTON-LS-5000"])
          [some TrytonTagNotFound.init]) :=
  ⟨by decide,
    c10_wrapper_bypass (XMLAnalyzer.ignored ["IGNORE-TRYTON-LS-5000"])
      [some TrytonTagNotFound.init] TrytonTagNotFound.init (by decide)⟩

/-- C8 (confirmed): a completion request with a captured receiver model
returns that model's completion members each exactly once, with every
field-kind item ordered before every method-kind item; a request with no
captured model returns the empty list. -/
theorem c8_completion_ranking (infos : List (String × CompletionInfo)) (k : String)
    (hnd : (infos.map Prod.fst).Nodup) :
    List.count k ((generate_completions infos).map (fun x => x.label)) =
      (if k ∈ infos.map Prod.fst then 1 else 0) ∧
    List.Pairwise
      (fun a b => a.kind = CompletionItemKind.Method →
        b.kind = CompletionItemKind.Method)
      (generate_completions infos) ∧
    get_completions none = [] := by
  refine ⟨?_, ?_, rfl⟩
  · have h1 : (infos.map completionItemOf).map (fun x => x.label) =
        infos.map Prod.fst := by
      rw [List.map_map]
      exact List.map_congr_left (fun kv _ => by
        rcases kv with ⟨a, b⟩; cases b <;> rfl)
    have hperm := (List.mergeSort_perm (infos.map completionItemOf)
      (fun a b => decide (completionKey a ≤ completionKey b))).map
      (fun x : CompletionItem => x.label)
    rw [h1] at hperm
    rw [generate_completions, hperm.count_eq k]
    by_cases hk : k ∈ infos.map Prod.fst
    · rw [if_pos hk]; exact List.count_eq_one_of_mem hnd hk
    · rw [if_neg hk]; exact List.count_eq_zero_of_not_mem hk
  · have hsorted := @List.sorted_mergeSort CompletionItem
      (fun a b : CompletionItem => decide (completionKey a ≤ completionKey b))
      (fun a b c hab hbc => by
        simp only [decide_eq_true_eq] at hab hbc ⊢; omega)
      (fun a b => by
        simp only [Bool.or_eq_true, decide_eq_true_eq]; omega)
      (infos.map completionItemOf)
    refine hsorted.imp ?_
    intro a b hab hma
    have hle : completionKey a ≤ completionKey b := of_decide_eq_true hab
    cases hb : b.kind with
    | Method => rfl
    | Field =>
        exfalso
        rw [completionKey, completionKey, hma, hb] at hle
        simp at hle

/-- Witness for C8 at a concrete completion payload. -/
theorem c8_completion_ranking_witness :
    (([("author", CompletionInfo.method "doc"),
       ("name", CompletionInfo.field "Name" false [] none none "Book")].map
        Prod.fst).Nodup) ∧
    (List.count "name"
        ((generate_completions
            [("author", CompletionInfo.method "doc"),
             ("name", CompletionInfo.field "Name" false [] none none "Book")]).map
          (fun x => x.label)) =
      (if "name" ∈ ([("author", CompletionInfo.method "doc"),
          ("name", CompletionInfo.field "Name" false [] none none "Book")].map
            Prod.fst) then 1 else 0) ∧
      List.Pairwise
        (fun a b => a.kind = CompletionItemKind.Method →
          b.kind = CompletionItemKind.Method)
        (generate_completions
          [("author", CompletionInfo.method "doc"),
           ("name", CompletionInfo.field "Name" false [] none none "Book")]) ∧
      get_completions none = []) :=
  ⟨by decide,
    c8_completion_ranking
      [("author", CompletionInfo.method "doc"),
       ("name", CompletionInfo.field "Name" false [] none none "Book")]
      "name" (by decide)⟩

/-! ### Lemmas for the super chain scan -/

theorem codeCount_append (a b : List Diagnostic) (code : String) :
    codeCount (a ++ b) code = codeCount a code + codeCount b code := by
  simp [codeCount, List.filter_append]

theorem superStyleDiags_other_code (fnName code : String)
    (h1 : code ≠ "1001") (h2 : code ≠ "1002") :
    ∀ calls : List SuperCallNode, codeCount (superStyleDiags fnName calls) code = 0
  | [] => rfl
  | c :: rest => by
      have ih := superStyleDiags_other_code fnName code h1 h2 rest
      simp only [superStyleDiags, List.map_cons, List.flatten_cons] at ih ⊢
      rw [codeCount_append, codeCount_append, ih]
      cases hc : c.hasArgs <;> cases hn : (c.attrName != fnName) <;>
        simp [codeCount, SuperInvocationWithParams.init,
          SuperInvocationMismatchedName.init, Ne.symm h1, Ne.symm h2]

theorem superScan_skip_pre (hs : Bool) (line : Nat) :
    ∀ (pre : List ChainEntry), (∀ e ∈ pre, e.matchesBase = false) →
      ∀ (fs : Bool) (rest : List ChainEntry),
        superScan hs line false fs (pre ++ rest) = superScan hs line false fs rest
  | [], _, _, _ => rfl
  | e :: pre, h, fs, rest => by
      have he := h e (List.mem_cons_self _ _)
      have ih := superScan_skip_pre hs line pre
        (fun x hx => h x (List.mem_cons_of_mem _ hx)) fs rest
      simp only [List.cons_append, superScan, he, Bool.false_and, Bool.and_false,
        if_false, Bool.false_eq_true, ite_false]
      exact ih

theorem superScan_base_step (hs : Bool) (line : Nat) (base : ChainEntry)
    (hb : base.matchesBase = true) (fb fs : Bool) (t : List ChainEntry) :
    superScan hs line fb fs (base :: t) = superScan hs line true fs t := by
  simp [superScan, hb]

theorem superScan_skip_mid (hs : Bool) (line : Nat) :
    ∀ (mid : List ChainEntry),
      (∀ e ∈ mid, e.matchesBase = true ∨ e.details = SuperDetails.absent) →
      ∀ (fs : Bool) (rest : List ChainEntry),
        superScan hs line true fs (mid ++ rest) = superScan hs line true fs rest
  | [], _, _, _ => rfl
  | e :: mid, h, fs, rest => by
      have ih := superScan_skip_mid hs line mid
        (fun x hx => h x (List.mem_cons_of_mem _ hx)) fs rest
      rcases h e (List.mem_cons_self _ _) with he | he
      · simpa [superScan, he] using ih
      · simpa [superScan, he, SuperDetails.isPresent] using ih

theorem superScan_absent_post (hs : Bool) (line : Nat) :
    ∀ (post : List ChainEntry), (∀ e ∈ post, e.details = SuperDetails.absent) →
      ∀ (fb fs : Bool), superScan hs line fb fs post = ([], fs)
  | [], _, _, _ => rfl
  | e :: post, h, fb, fs => by
      have he := h e (List.mem_cons_self _ _)
      have ih := superScan_absent_post hs line post
        (fun x hx => h x (List.mem_cons_of_mem _ hx))
      cases hm : e.matchesBase <;>
        simp [superScan, hm, he, SuperDetails.isPresent, ih]

theorem superScan_after_found (line : Nat) :
    ∀ (l : List ChainEntry) (fb : Bool), superScan true line fb true l = ([], true)
  | [], _ => rfl
  | e :: l, fb => by
      cases hm : e.matchesBase <;>
        cases hp : e.details.isPresent <;>
        simp [superScan, hm, hp, superScan_after_found line l]

theorem superScan_decisive_no_super (line : Nat) (d : SuperDetails)
    (hd : d.isPresent = true) (fs : Bool) (rest : List ChainEntry) :
    superScan false line true fs
        (({ matchesBase := false, details := d } : ChainEntry) :: rest) =
      ((match d with
        | SuperDetails.site p m s =>
            if p && m && !s then [MissingSuperCall.init line] else []
        | _ => []), fs) := by
  cases d with
  | absent => simp [SuperDetails.isPresent] at hd
  | noCode => simp [superScan, SuperDetails.isPresent]
  | site p m s => simp [superScan, SuperDetails.isPresent]

theorem superScan_decisive_with_super (line : Nat) (d : SuperDetails)
    (hd : d.isPresent = true) (rest : List ChainEntry) :
    superScan true line true false
        (({ matchesBase := false, details := d } : ChainEntry) :: rest) =
      ([], true) := by
  cases d with
  | absent => simp [SuperDetails.isPresent] at hd
  | noCode => simp [superScan, SuperDetails.isPresent, superScan_after_found]
  | site p m s => simp [superScan, SuperDetails.isPresent, superScan_after_found]

theorem codeCount_nil (code : String) : codeCount [] code = 0 := rfl

theorem codeCount_msc4 (line : Nat) :
    codeCount [MissingSuperCall.init line] "1004" = 1 := by
  simp [codeCount, MissingSuperCall.init]

theorem codeCount_msc3 (line : Nat) :
    codeCount [MissingSuperCall.init line] "1003" = 0 := by
  simp [codeCount, MissingSuperCall.init]

theorem codeCount_swp3 (line : Nat) :
    codeCount [SuperWithoutParent.init line] "1003" = 1 := by
  simp [codeCount, SuperWithoutParent.init]

theorem codeCount_swp4 (line : Nat) :
    codeCount [SuperWithoutParent.init line] "1004" = 0 := by
  simp [codeCount, SuperWithoutParent.init]

/-- C4 (confirmed): for a method M of a class bound to a known model,
scanning the model's override chain from the current definition's
position: a super call present while every entry beyond the position has
no details yields exactly one SuperWithoutParent; no super call while the
first decisive entry beyond the position is a loadable, located,
non-suppressed definition site yields exactly one MissingSuperCall (a
suppressed or unloadable site yields none); a no-body decisive entry
terminates the search with no violation; with a super call present, any
decisive entry beyond the position prevents SuperWithoutParent. -/
theorem c4_super_chain
    (fnName : String) (fnLine : Nat) (calls : List SuperCallNode)
    (pre mid rest post : List ChainEntry) (base : ChainEntry)
    (decisive : SuperDetails)
    (hpre : ∀ e ∈ pre, e.matchesBase = false)
    (hbase : base.matchesBase = true)
    (hmid : ∀ e ∈ mid, e.matchesBase = true ∨ e.details = SuperDetails.absent)
    (hdec : decisive.isPresent = true)
    (hpost : ∀ e ∈ post, e.details = SuperDetails.absent) :
    (codeCount (check_super_call fnName fnLine calls
        (some (pre ++ base ::
          (mid ++ ({ matchesBase := false, details := decisive } : ChainEntry) :: rest))))
      "1004" =
      (if calls.isEmpty then
        (match decisive with
         | SuperDetails.site p m s => if p && m && !s then 1 else 0
         | _ => 0)
       else 0)) ∧
    (codeCount (check_super_call fnName fnLine calls
        (some (pre ++ base ::
          (mid ++ ({ matchesBase := false, details := decisive } : ChainEntry) :: rest))))
      "1003" = 0) ∧
    (codeCount (check_super_call fnName fnLine calls (some (pre ++ base :: post)))
      "1003" = (if calls.isEmpty then 0 else 1)) ∧
    (codeCount (check_super_call fnName fnLine calls (some (pre ++ base :: post)))
      "1004" = 0) := by
  have hstyle3 := superStyleDiags_other_code fnName "1003" (by decide) (by decide) calls
  have hstyle4 := superStyleDiags_other_code fnName "1004" (by decide) (by decide) calls
  cases hc : calls.isEmpty with
  | true =>
      have houtA : check_super_call fnName fnLine calls
          (some (pre ++ base ::
            (mid ++ ({ matchesBase := false, details := decisive } : ChainEntry) :: rest))) =
          superStyleDiags fnName calls ++
            (match decisive with
             | SuperDetails.site p m s =>
                 if p && m && !s then [MissingSuperCall.init fnLine] else []
             | _ => []) := by
        simp only [check_super_call, hc, Bool.not_true]
        rw [superScan_skip_pre false fnLine pre hpre,
            superScan_base_step false fnLine base hbase,
            superScan_skip_mid false fnLine mid hmid,
            superScan_decisive_no_super fnLine decisive hdec]
        simp
      have houtB : check_super_call fnName fnLine calls (some (pre ++ base :: post)) =
          superStyleDiags fnName calls := by
        simp only [check_super_call, hc, Bool.not_true]
        rw [superScan_skip_pre false fnLine pre hpre,
            superScan_base_step false fnLine base hbase,
            superScan_absent_post false fnLine post hpost]
        simp
      refine ⟨?_, ?_, ?_, ?_⟩
      · rw [houtA, codeCount_append, hstyle4, if_pos rfl]
        cases decisive with
        | absent => simp [SuperDetails.isPresent] at hdec
        | noCode => rfl
        | site p m s =>
            cases hpms : (p && m && !s) <;>
              simp [hpms, codeCount_msc4, codeCount_nil]
      · rw [houtA, codeCount_append, hstyle3]
        cases decisive with
        | absent => simp [SuperDetails.isPresent] at hdec
        | noCode => rfl
        | site p m s =>
            cases hpms : (p && m && !s) <;>
              simp [hpms, codeCount_msc3, codeCount_nil]
      · rw [houtB, hstyle3, if_pos rfl]
      · rw [houtB, hstyle4]
  | false =>
      have houtA : check_super_call fnName fnLine calls
          (some (pre ++ base ::
            (mid ++ ({ matchesBase := false, details := decisive } : ChainEntry) :: rest))) =
          superStyleDiags fnName calls := by
        simp only [check_super_call, hc, Bool.not_false]
        rw [superScan_skip_pre true fnLine pre hpre,
            superScan_base_step true fnLine base hbase,
            superScan_skip_mid true fnLine mid hmid,
            superScan_decisive_with_super fnLine decisive hdec]
        simp
      have houtB : check_super_call fnName fnLine calls (some (pre ++ base :: post)) =
          superStyleDiags fnName calls ++ [SuperWithoutParent.init fnLine] := by
        simp only [check_super_call, hc, Bool.not_false]
        rw [superScan_skip_pre true fnLine pre hpre,
            superScan_base_step true fnLine base hbase,
            superScan_absent_post true fnLine post hpost]
        simp
      refine ⟨?_, ?_, ?_, ?_⟩
      · rw [houtA, hstyle4]; simp
      · rw [houtA, hstyle3]
      · rw [houtB, codeCount_append, hstyle3, codeCount_swp3]; simp
      · rw [houtB, codeCount_append, hstyle4, codeCount_swp4]

/-! ### Lemmas and spec-side predicate for check_depends -/

theorem lookup_mem {β : Type} : ∀ (l : List (String × β)) (k : String) (v : β),
    l.lookup k = some v → (k, v) ∈ l := by
  intro l
  induction l with
  | nil => intro k v h; simp [List.lookup] at h
  | cons p t ih =>
      intro k v h
      rcases p with ⟨a, b⟩
      rw [List.lookup] at h
      cases hak : (k == a) with
      | true =>
          rw [hak] at h
          simp only [Option.some.injEq] at h
          subst h
          have ha : k = a := by simpa using hak
          subst ha
          exact List.mem_cons_self _ _
      | false =>
          rw [hak] at h
          exact List.mem_cons_of_mem _ (ih k v h)

theorem modelWf_field (m : PoolModelData) (hm : modelWf m = true) (a : String)
    (f : FieldData) (hf : m.getField a = some f) (hm2o : f.ftype = "many2one") :
    ∃ rel, f.relation = some rel := by
  have hmem := lookup_mem _ _ _ hf
  have hall := (List.all_eq_true.mp hm) _ hmem
  simp only [bne_iff_ne, Bool.or_eq_true, decide_eq_true_eq, hm2o] at hall
  rcases hall with hne | hsome
  · exact absurd rfl hne
  · exact Option.isSome_iff_exists.mp hsome

theorem poolWf_get (pool : Pool) (hp : poolWf pool = true) (name : String)
    (m : PoolModelData) (h : pool.get? name PoolKind.model = some m) :
    modelWf m = true := by
  have hmem := lookup_mem pool.models name m h
  exact (List.all_eq_true.mp hp) _ hmem

theorem checkDependsSegs_spec (pool : Pool) (hp : poolWf pool = true) (line : Nat) :
    ∀ (segs : List String) (cur : PoolModelData) (fn0 : Option String),
      modelWf cur = true →
      ∃ c f d broke,
        checkDependsSegs pool cur fn0 line segs = Except.ok (c, f, d, broke) ∧
        modelWf c = true ∧
        (∀ x ∈ d, x.err_code = "1007" ∨ x.err_code = "1006") ∧
        (broke = true → d.length = 1 ∧ specReach pool cur segs = none) ∧
        (broke = false → d = [] ∧ specReach pool cur segs = some c)
  | [], cur, fn0, hm =>
      ⟨cur, fn0, [], false, rfl, hm, by simp, by simp, by simp [specReach]⟩
  | seg :: rest, cur, fn0, hm => by
      by_cases hpar : strStartsWith seg "_parent_" = false
      · refine ⟨cur, some seg, [UnknownAttribute.init line cur.name seg], true,
          ?_, hm, ?_, ?_, by simp⟩
        · rw [checkDependsSegs, if_pos hpar]
        · intro x hx
          simp only [List.mem_singleton] at hx
          subst hx
          exact Or.inl rfl
        · intro _
          refine ⟨rfl, ?_⟩
          rw [specReach, if_neg (by simpa using hpar)]
      · have hpar' : strStartsWith seg "_parent_" = true := by
          simpa using hpar
        rcases hgf : cur.getField (strDrop seg 8) with _ | f
        · refine ⟨cur, some (strDrop seg 8),
            [UnknownAttribute.init line cur.name (strDrop seg 8)], true,
            ?_, hm, ?_, ?_, by simp⟩
          · rw [checkDependsSegs, if_neg (by simp [hpar'])]
            simp [hgf]
          · intro x hx
            simp only [List.mem_singleton] at hx
            subst hx
            exact Or.inl rfl
          · intro _
            refine ⟨rfl, ?_⟩
            simp [specReach, hpar', hgf]
        · by_cases hft : f.ftype = "many2one"
          · rcases modelWf_field cur hm _ f hgf hft with ⟨rel, hrel⟩
            rcases hpg : pool.get? rel PoolKind.model with _ | m
            · refine ⟨cur, some (strDrop seg 8),
                [UnknownModel.init line rel], true, ?_, hm, ?_, ?_, by simp⟩
              · rw [checkDependsSegs, if_neg (by simp [hpar'])]
                simp [hgf, hft, hrel, hpg]
              · intro x hx
                simp only [List.mem_singleton] at hx
                subst hx
                exact Or.inr rfl
              · intro _
                refine ⟨rfl, ?_⟩
                simp [specReach, hpar', hgf, hft, hrel, hpg]
            · have hmwf := poolWf_get pool hp rel m hpg
              rcases checkDependsSegs_spec pool hp line rest m (some (strDrop seg 8)) hmwf
                with ⟨c, f2, d, broke, heq, hcwf, herr, hbt, hbf⟩
              refine ⟨c, f2, d, broke, ?_, hcwf, herr, ?_, ?_⟩
              · rw [checkDependsSegs, if_neg (by simp [hpar'])]
                simpa [hgf, hft, hrel, hpg] using heq
              · intro hb
                refine ⟨(hbt hb).1, ?_⟩
                have hrw : specReach pool cur (seg :: rest) = specReach pool m rest := by
                  simp [specReach, hpar', hgf, hft, hrel, hpg]
                rw [hrw]
                exact (hbt hb).2
              · intro hb
                refine ⟨(hbf hb).1, ?_⟩
                have hrw : specReach pool cur (seg :: rest) = specReach pool m rest := by
                  simp [specReach, hpar', hgf, hft, hrel, hpg]
                rw [hrw]
                exact (hbf hb).2
          · refine ⟨cur, some (strDrop seg 8),
              [UnknownAttribute.init line cur.name (strDrop seg 8)], true,
              ?_, hm, ?_, ?_, by simp⟩
            · rw [checkDependsSegs, if_neg (by simp [hpar'])]
              simp [hgf, hft]
            · intro x hx
              simp only [List.mem_singleton] at hx
              subst hx
              exact Or.inl rfl
            · intro _
              refine ⟨rfl, ?_⟩
              simp [specReach, hpar', hgf, hft]

theorem except_bind_ok {A B : Type} (a : A) (g : A → Except String B) :
    (Except.ok a >>= g) = g a := rfl

theorem checkDependsStrArg_spec (pool : Pool) (hp : poolWf pool = true)
    (model : PoolModelData) (hm : modelWf model = true) (v : String) (line : Nat) :
    ∃ loc, checkDependsStrArg pool model v line =
        Except.ok (loc, strArgDiags pool model v line) ∧
      (strArgDiags pool model v line).length ≤ 1 ∧
      (∀ x ∈ strArgDiags pool model v line,
        x.err_code = "1007" ∨ x.err_code = "1006") ∧
      (strArgDiags pool model v line = [] ↔
        dependsEntrySpec pool model v = true) := by
  rcases checkDependsSegs_spec pool hp line (splitOnDot v).dropLast model none hm
    with ⟨c, f, d, broke, heq, hcwf, herr, hbt, hbf⟩
  cases broke with
  | true =>
      have h1 := hbt rfl
      have harg : checkDependsStrArg pool model v line =
          Except.ok ({ cur_model := some c, field_name := f }, d) := by
        simp only [checkDependsStrArg, heq, except_bind_ok]
        simp
      have hd : strArgDiags pool model v line = d := by
        simp [strArgDiags, harg]
      refine ⟨{ cur_model := some c, field_name := f }, by rw [hd]; exact harg,
        by rw [hd, h1.1], fun x hx => herr x (by rwa [hd] at hx), ?_⟩
      rw [hd]
      simp only [dependsEntrySpec, h1.2]
      constructor
      · intro hnil
        rw [hnil] at h1
        simp at h1
      · intro hfalse
        simp at hfalse
  | false =>
      have h0 := hbf rfl
      cases hfin : (c.getField ((splitOnDot v).getLastD "")).isSome with
      | true =>
          have hfin' : (c.getField ((splitOnDot v).getLast?.getD "")).isSome = true := by
            rw [← List.getLastD_eq_getLast?]
            exact hfin
          have harg : checkDependsStrArg pool model v line =
              Except.ok ({ cur_model := some c,
                           field_name := some ((splitOnDot v).getLastD "") }, d) := by
            simp only [checkDependsStrArg, heq, except_bind_ok]
            simp [hfin']
          have hd : strArgDiags pool model v line = d := by
            simp [strArgDiags, harg]
          refine ⟨{ cur_model := some c,
                    field_name := some ((splitOnDot v).getLastD "") },
            by rw [hd]; exact harg, by rw [hd, h0.1]; simp,
            fun x hx => herr x (by rwa [hd] at hx), ?_⟩
          rw [hd, h0.1]
          simp [dependsEntrySpec, h0.2, hfin]
          exact hfin'
      | false =>
          have hfin' : (c.getField ((splitOnDot v).getLast?.getD "")).isSome = false := by
            rw [← List.getLastD_eq_getLast?]
            exact hfin
          have harg : checkDependsStrArg pool model v line =
              Except.ok ({ cur_model := some c,
                           field_name := some ((splitOnDot v).getLastD "") },
                d ++ [UnknownAttribute.init line c.name
                  ((splitOnDot v).getLastD "")]) := by
            simp only [checkDependsStrArg, heq, except_bind_ok]
            simp [hfin']
          have hd : strArgDiags pool model v line =
              [UnknownAttribute.init line c.name ((splitOnDot v).getLastD "")] := by
            simp [strArgDiags, harg, h0.1]
          refine ⟨{ cur_model := some c,
                    field_name := some ((splitOnDot v).getLastD "") },
            ?_, by rw [hd]; simp, ?_, ?_⟩
          · rw [hd]
            rw [harg, h0.1]
            simp
          · intro x hx
            rw [hd] at hx
            simp only [List.mem_singleton] at hx
            subst hx
            exact Or.inl rfl
          · rw [hd]
            simp [dependsEntrySpec, h0.2, hfin]
            cases hopt : c.getField ((splitOnDot v).getLast?.getD "") with
            | none => rfl
            | some w => rw [hopt] at hfin'; simp at hfin'

theorem checkDependsGo_str_entries (pool : Pool) (hp : poolWf pool = true)
    (model : PoolModelData) (hm : modelWf model = true) :
    ∀ (entries : List (String × Nat)) (loc : DependsLocals),
      checkDependsGo pool model loc (entries.map (fun e => DependsArg.str e.1 e.2)) =
        Except.ok ((entries.map (fun e => strArgDiags pool model e.1 e.2)).flatten) := by
  intro entries
  induction entries with
  | nil => intro _loc; rfl
  | cons e rest ih =>
      intro loc
      rcases checkDependsStrArg_spec pool hp model hm e.1 e.2
        with ⟨loc2, harg, _, _, _⟩
      simp [checkDependsGo, harg, ih, except_bind_ok]

/-- C3 counterexample: the final segment of a dependency entry naming an
accessible member of the model that is not one of its fields is rejected
with UnknownAttribute, although the claim's member condition is
satisfied. -/
theorem c3_member_not_field_counterexample :
    authorModel.has_attribute "test_function" = true ∧
    check_depends examplePool authorModel [DependsArg.str "test_function" 9] =
      Except.ok [UnknownAttribute.init 9 "author" "test_function"] :=
  ⟨rfl, rfl⟩

/-- C3 (corrected): for string entries of a fields.depends list over a
well-formed schema, the list of entries is checked entry by entry with
the diagnostics concatenated (a bad entry never stops the remaining
entries); each entry contributes at most one diagnostic, every
contributed diagnostic is an UnknownAttribute or UnknownModel, and an
entry contributes none exactly when its non-final segments all carry the
to-one prefix marker and traverse existing resolvable to-one fields and
its final segment is an existing field (not merely an accessible member)
of the model reached. -/
theorem c3_depends_entries_amended (pool : Pool) (model : PoolModelData)
    (entries : List (String × Nat)) (v : String) (line : Nat) (x : Diagnostic)
    (hp : poolWf pool = true) (hm : modelWf model = true)
    (hx : x ∈ strArgDiags pool model v line) :
    check_depends pool model (entries.map (fun e => DependsArg.str e.1 e.2)) =
      Except.ok ((entries.map (fun e => strArgDiags pool model e.1 e.2)).flatten) ∧
    (strArgDiags pool model v line).length ≤ 1 ∧
    (strArgDiags pool model v line = [] ↔ dependsEntrySpec pool model v = true) ∧
    (x.err_code = "1007" ∨ x.err_code = "1006") := by
  rcases checkDependsStrArg_spec pool hp model hm v line
    with ⟨loc, _, hlen, herr, hiff⟩
  exact ⟨checkDependsGo_str_entries pool hp model hm entries _, hlen, hiff,
    herr x hx⟩

/-- Witness for the amended C3 theorem at a concrete dependency list. -/
theorem c3_depends_entries_amended_witness :
    poolWf examplePool = true ∧
    modelWf bookModel = true ∧
    UnknownAttribute.init 5 "book" "author" ∈
      strArgDiags examplePool bookModel "author.name" 5 ∧
    (check_depends examplePool bookModel
        ([("name", 4), ("author.name", 5)].map (fun e => DependsArg.str e.1 e.2)) =
      Except.ok (([("name", 4), ("author.name", 5)].map
        (fun e => strArgDiags examplePool bookModel e.1 e.2)).flatten) ∧
      (strArgDiags examplePool bookModel "author.name" 5).length ≤ 1 ∧
      (strArgDiags examplePool bookModel "author.name" 5 = [] ↔
        dependsEntrySpec examplePool bookModel "author.name" = true) ∧
      ((UnknownAttribute.init 5 "book" "author").err_code = "1007" ∨
        (UnknownAttribute.init 5 "book" "author").err_code = "1006")) :=
  ⟨by decide, by decide, by decide,
    c3_depends_entries_amended examplePool bookModel [("name", 4), ("author.name", 5)]
      "author.name" 5 (UnknownAttribute.init 5 "book" "author")
      (by decide) (by decide) (by decide)⟩

/-- Witness for C4 at concrete chains: a super call with a no-body entry
beyond the base position raises nothing; a missing super call before a
definable non-suppressed site yields one MissingSuperCall; a super call
with nothing definable beyond the base yields one SuperWithoutParent. -/
theorem c4_super_chain_witness :
    codeCount (check_super_call "validate" 20
        [{ hasArgs := false, attrName := "validate", line := 21 }]
        (some [{ matchesBase := true, details := SuperDetails.site true true false },
               { matchesBase := false, details := SuperDetails.noCode }])) "1003" = 0 ∧
    codeCount (check_super_call "validate" 20 []
        (some [{ matchesBase := true, details := SuperDetails.site true true false },
               { matchesBase := false, details := SuperDetails.site true true false }]))
      "1004" = 1 ∧
    codeCount (check_super_call "validate" 20
        [{ hasArgs := false, attrName := "validate", line := 21 }]
        (some [{ matchesBase := true, details := SuperDetails.site true true false },
               { matchesBase := false, details := SuperDetails.absent }])) "1003" = 1 := by
  refine ⟨?_, ?_, ?_⟩
  · have h := c4_super_chain "validate" 20
      [{ hasArgs := false, attrName := "validate", line := 21 }]
      [] [] [] [] { matchesBase := true, details := SuperDetails.site true true false }
      SuperDetails.noCode (by simp) (by decide) (by simp) (by decide) (by simp)
    simpa using h.2.1
  · have h := c4_super_chain "validate" 20 []
      [] [] [] [] { matchesBase := true, details := SuperDetails.site true true false }
      (SuperDetails.site true true false) (by simp) (by decide) (by simp) (by decide)
      (by simp)
    simpa using h.1
  · have h := c4_super_chain "validate" 20
      [{ hasArgs := false, attrName := "validate", line := 21 }]
      [] [] [] [{ matchesBase := false, details := SuperDetails.absent }]
      { matchesBase := true, details := SuperDetails.site true true false }
      SuperDetails.noCode (by simp) (by decide) (by simp) (by decide) (by decide)
    simpa using h.2.2.1

/-- C5 (confirmed): a diagnostic routed through the Python analyzer's
add_diagnostic survives with its full multiplicity exactly when its code
is not suppressed at its start line, and its code is suppressed exactly
when the inline marker for that code occurs on the line itself or on a
comment line immediately above it; suppression is keyed on the
diagnostic's own code and line, so no other diagnostic is affected. -/
theorem c5_inline_suppression (raw_lines : List String) (ds : List Diagnostic)
    (d : Diagnostic) :
    List.count d (emitAll (PythonAnalyzer.ignored raw_lines) (ds.map some)) =
      (if PythonAnalyzer.ignored raw_lines d.err_code d.line then 0
       else List.count d ds) ∧
    PythonAnalyzer.ignored raw_lines d.err_code d.line =
      (markerOnLine raw_lines d.err_code d.line ||
        (decide (d.line > 1) && commentLine raw_lines (d.line - 1) &&
          markerOnLine raw_lines d.err_code (d.line - 1))) := by
  constructor
  · rw [emitAll_eq_filter]
    have hid : (ds.map some).filterMap id = ds := by
      simp [List.filterMap_map]
    rw [hid]
    by_cases h : PythonAnalyzer.ignored raw_lines d.err_code d.line
    · rw [if_pos h]
      refine List.count_eq_zero.mpr ?_
      intro hmem
      have := List.of_mem_filter hmem
      simp [h] at this
    · rw [if_neg h]
      exact List.count_filter (by simp [h])
  · simp only [PythonAnalyzer.ignored, Analyzer.ignored, markerOnLine, commentLine,
      Bool.and_assoc, Nat.sub_sub]

/-! ### Lemmas for the XML record pass -/

theorem lookup_append {β : Type} (l1 l2 : List (String × β)) (k : String) :
    (l1 ++ l2).lookup k =
      (match l1.lookup k with
       | some v => some v
       | none => l2.lookup k) := by
  induction l1 with
  | nil => simp [List.lookup]
  | cons p t ih =>
      rcases p with ⟨a, b⟩
      cases hak : (k == a) with
      | true => simp [List.lookup, hak]
      | false => simp [List.lookup, hak, ih]

theorem recordModelStep_fs (st2 : XmlRecState) (cp : Option Pool) (node : RecordNode) :
    (recordModelStep st2 cp node).1.fs_ids = st2.fs_ids ∧
    dupFilter (recordModelStep st2 cp node).2 = [] := by
  rcases cp with _ | pool <;> rcases hm : node.model_attr with _ | mname <;>
    simp [recordModelStep, dupFilter, hm]
  by_cases hmn : mname = ""
  · simp [hmn]
  · rcases hg : pool.get? mname PoolKind.model with _ | m <;>
      simp [hmn, hg, RecordUnknownModel.init]

theorem recordIdStep_spec (fs_ids : List (String × Nat)) (node : RecordNode) :
    (recordIdStep fs_ids node).1 =
      (match node.id_attr with
       | some i =>
         (match fs_ids.lookup i with
          | some _ => fs_ids
          | none => fs_ids ++ [(i, node.sourceline)])
       | none => fs_ids) ∧
    dupFilter (recordIdStep fs_ids node).2 =
      (match node.id_attr with
       | some i =>
         (match fs_ids.lookup i with
          | some first => [RecordDuplicateId.init node.sourceline i (toString first)]
          | none => [])
       | none => []) := by
  rcases hid : node.id_attr with _ | i <;>
    simp [recordIdStep, hid, dupFilter, RecordMissingAttribute.init]
  rcases hl : fs_ids.lookup i with _ | first <;>
    simp [hl, RecordDuplicateId.init]

theorem analyze_record_start_dup (st : XmlRecState) (depth : Nat) (node : RecordNode) :
    dupFilter (analyze_record_start st depth node).2 =
      dupFilter (recordIdStep st.fs_ids node).2 ∧
    (analyze_record_start st depth node).1.fs_ids = (recordIdStep st.fs_ids node).1 := by
  obtain ⟨hms1, hms2⟩ := recordModelStep_fs
    { st with fs_ids := (recordIdStep st.fs_ids node).1 } st.current_pool node
  constructor
  · have hms2' : List.filter (fun d => d.err_code == "5006")
        (recordModelStep { st with fs_ids := (recordIdStep st.fs_ids node).1 }
          st.current_pool node).2 = [] := hms2
    by_cases hd3 : depth = 3 <;>
      by_cases hmo : node.model_attr.isNone = true <;>
      simp [analyze_record_start, dupFilter, List.filter_append, hd3, hmo,
        UnexpectedXMLTag.init, RecordMissingAttribute.init, hms2']
  · simpa [analyze_record_start] using hms1

theorem dupFilter_append (a b : List Diagnostic) :
    dupFilter (a ++ b) = dupFilter a ++ dupFilter b :=
  List.filter_append _ _

theorem lookup_singleton_ne {β : Type} (k i : String) (v : β) (h : k ≠ i) :
    List.lookup k [(i, v)] = none := by
  have hb : (k == i) = false := by simpa using h
  simp [List.lookup, hb]

theorem lookup_singleton_eq {β : Type} (i : String) (v : β) :
    List.lookup i [(i, v)] = some v := by
  simp [List.lookup]

theorem idsOf_cons (d : Nat) (n : RecordNode) (rest : List (Nat × RecordNode)) :
    idsOf ((d, n) :: rest) =
      (match n.id_attr with
       | some i => i :: idsOf rest
       | none => idsOf rest) := by
  rcases hid : n.id_attr with _ | i <;> simp [idsOf, List.filterMap_cons, hid]

theorem idsOf_append (a b : List (Nat × RecordNode)) :
    idsOf (a ++ b) = idsOf a ++ idsOf b := by
  simp [idsOf, List.filterMap_append]

theorem analyzeRecords_append (st : XmlRecState) (a b : List (Nat × RecordNode)) :
    analyzeRecords st (a ++ b) =
      ((analyzeRecords (analyzeRecords st a).1 b).1,
       (analyzeRecords st a).2 ++ (analyzeRecords (analyzeRecords st a).1 b).2) := by
  induction a generalizing st with
  | nil => simp [analyzeRecords]
  | cons p t ih =>
      rcases p with ⟨d, n⟩
      simp [analyzeRecords, ih]

theorem analyze_record_start_dup_fresh (st : XmlRecState) (depth : Nat)
    (node : RecordNode) (i : String) (hid : node.id_attr = some i)
    (hl : st.fs_ids.lookup i = none) :
    dupFilter (analyze_record_start st depth node).2 = [] ∧
    (analyze_record_start st depth node).1.fs_ids =
      st.fs_ids ++ [(i, node.sourceline)] := by
  obtain ⟨hdup, hfs⟩ := analyze_record_start_dup st depth node
  obtain ⟨hid1, hid2⟩ := recordIdStep_spec st.fs_ids node
  simp only [hid, hl] at hid1 hid2
  exact ⟨by rw [hdup, hid2], by rw [hfs, hid1]⟩

theorem analyze_record_start_dup_hit (st : XmlRecState) (depth : Nat)
    (node : RecordNode) (i : String) (first : Nat) (hid : node.id_attr = some i)
    (hl : st.fs_ids.lookup i = some first) :
    dupFilter (analyze_record_start st depth node).2 =
      [RecordDuplicateId.init node.sourceline i (toString first)] ∧
    (analyze_record_start st depth node).1.fs_ids = st.fs_ids := by
  obtain ⟨hdup, hfs⟩ := analyze_record_start_dup st depth node
  obtain ⟨hid1, hid2⟩ := recordIdStep_spec st.fs_ids node
  simp only [hid, hl] at hid1 hid2
  exact ⟨by rw [hdup, hid2], by rw [hfs, hid1]⟩

theorem analyze_record_start_dup_noid (st : XmlRecState) (depth : Nat)
    (node : RecordNode) (hid : node.id_attr = none) :
    dupFilter (analyze_record_start st depth node).2 = [] ∧
    (analyze_record_start st depth node).1.fs_ids = st.fs_ids := by
  obtain ⟨hdup, hfs⟩ := analyze_record_start_dup st depth node
  obtain ⟨hid1, hid2⟩ := recordIdStep_spec st.fs_ids node
  simp only [hid] at hid1 hid2
  exact ⟨by rw [hdup, hid2], by rw [hfs, hid1]⟩

theorem analyzeRecords_fresh :
    ∀ (rs : List (Nat × RecordNode)) (st : XmlRecState),
      (∀ i ∈ idsOf rs, st.fs_ids.lookup i = none) →
      (idsOf rs).Nodup →
      dupFilter (analyzeRecords st rs).2 = [] ∧
      (∀ k v, st.fs_ids.lookup k = some v →
        (analyzeRecords st rs).1.fs_ids.lookup k = some v) ∧
      (∀ k, st.fs_ids.lookup k = none → k ∉ idsOf rs →
        (analyzeRecords st rs).1.fs_ids.lookup k = none)
  | [], st, _, _ => by
      refine ⟨rfl, ?_, ?_⟩
      · intro k v hk
        simpa [analyzeRecords] using hk
      · intro k hk _
        simpa [analyzeRecords] using hk
  | (depth, n) :: rest, st, hfresh, hnd => by
      rcases hid : n.id_attr with _ | i
      · obtain ⟨hdups, hfs'⟩ := analyze_record_start_dup_noid st depth n hid
        have hfr' : ∀ j ∈ idsOf rest,
            (analyze_record_start st depth n).1.fs_ids.lookup j = none := by
          intro j hj
          rw [hfs']
          exact hfresh j (by rw [idsOf_cons]; simpa [hid] using hj)
        have hnd' : (idsOf rest).Nodup := by
          rw [idsOf_cons] at hnd
          simpa [hid] using hnd
        obtain ⟨ih1, ih2, ih3⟩ :=
          analyzeRecords_fresh rest (analyze_record_start st depth n).1 hfr' hnd'
        refine ⟨?_, ?_, ?_⟩
        · simp only [analyzeRecords]
          rw [dupFilter_append, hdups, ih1]
          rfl
        · intro k v hk
          simp only [analyzeRecords]
          exact ih2 k v (by rw [hfs']; exact hk)
        · intro k hk hkmem
          simp only [analyzeRecords]
          refine ih3 k (by rw [hfs']; exact hk) ?_
          intro hc
          exact hkmem (by rw [idsOf_cons]; simpa [hid] using hc)
      · have hmemi : i ∈ idsOf ((depth, n) :: rest) := by
          rw [idsOf_cons]; simp [hid]
        have hlook : st.fs_ids.lookup i = none := hfresh i hmemi
        obtain ⟨hdups, hfs'⟩ := analyze_record_start_dup_fresh st depth n i hid hlook
        have hndc : i ∉ idsOf rest ∧ (idsOf rest).Nodup := by
          rw [idsOf_cons] at hnd
          simp only [hid] at hnd
          exact List.nodup_cons.mp hnd
        have hfr' : ∀ j ∈ idsOf rest,
            (analyze_record_start st depth n).1.fs_ids.lookup j = none := by
          intro j hj
          have hj0 : st.fs_ids.lookup j = none :=
            hfresh j (by rw [idsOf_cons]; simp [hid, hj])
          have hne : j ≠ i := fun h => hndc.1 (h ▸ hj)
          rw [hfs', lookup_append]
          simp only [hj0]
          exact lookup_singleton_ne j i _ hne
        obtain ⟨ih1, ih2, ih3⟩ :=
          analyzeRecords_fresh rest (analyze_record_start st depth n).1 hfr' hndc.2
        refine ⟨?_, ?_, ?_⟩
        · simp only [analyzeRecords]
          rw [dupFilter_append, hdups, ih1]
          rfl
        · intro k v hk
          simp only [analyzeRecords]
          refine ih2 k v ?_
          rw [hfs', lookup_append]
          simp only [hk]
        · intro k hk hkmem
          have hki : k ≠ i := by
            intro h
            subst h
            exact hkmem hmemi
          have hkrest : k ∉ idsOf rest := fun hc =>
            hkmem (by rw [idsOf_cons]; simp [hid, hc])
          simp only [analyzeRecords]
          refine ih3 k ?_ hkrest
          rw [hfs', lookup_append]
          simp only [hk]
          exact lookup_singleton_ne k i _ hki

theorem recordModelStep_count_missing (st2 : XmlRecState) (cp : Option Pool)
    (node : RecordNode) (a : String) :
    List.count (RecordMissingAttribute.init node.sourceline a)
      (recordModelStep st2 cp node).2 = 0 := by
  rcases cp with _ | pool <;> rcases hm : node.model_attr with _ | mname <;>
    simp [recordModelStep, hm]
  by_cases hmn : mname = ""
  · simp [hmn]
  · rcases hg : pool.get? mname PoolKind.model with _ | m <;>
      simp [hmn, hg, RecordUnknownModel.init, RecordMissingAttribute.init,
        List.count_cons]

theorem recordIdStep_count_model (fs_ids : List (String × Nat)) (node : RecordNode) :
    List.count (RecordMissingAttribute.init node.sourceline "model")
      (recordIdStep fs_ids node).2 = 0 := by
  rcases hid : node.id_attr with _ | i <;>
    simp [recordIdStep, hid, RecordMissingAttribute.init, List.count_cons]
  rcases hl : fs_ids.lookup i with _ | first <;>
    simp [hl, RecordDuplicateId.init, RecordMissingAttribute.init, List.count_cons]

theorem recordIdStep_count_id (fs_ids : List (String × Nat)) (node : RecordNode) :
    List.count (RecordMissingAttribute.init node.sourceline "id")
      (recordIdStep fs_ids node).2 =
      (if node.id_attr.isNone then 1 else 0) := by
  rcases hid : node.id_attr with _ | i <;>
    simp [recordIdStep, hid, RecordMissingAttribute.init, List.count_cons]
  rcases hl : fs_ids.lookup i with _ | first <;>
    simp [hl, RecordDuplicateId.init, RecordMissingAttribute.init, List.count_cons]

theorem analyze_record_start_missing (st : XmlRecState) (depth : Nat)
    (node : RecordNode) :
    List.count (RecordMissingAttribute.init node.sourceline "model")
        (analyze_record_start st depth node).2 =
      (if node.model_attr.isNone then 1 else 0) ∧
    List.count (RecordMissingAttribute.init node.sourceline "id")
        (analyze_record_start st depth node).2 =
      (if node.id_attr.isNone then 1 else 0) := by
  have hms := recordModelStep_count_missing
    { st with fs_ids := (recordIdStep st.fs_ids node).1 } st.current_pool node
  constructor
  · simp only [analyze_record_start, List.count_append]
    rw [recordIdStep_count_model, hms]
    by_cases hd3 : depth = 3 <;>
      by_cases hmo : node.model_attr.isNone = true <;>
      simp [hd3, hmo, UnexpectedXMLTag.init, RecordMissingAttribute.init,
        List.count_cons]
  · simp only [analyze_record_start, List.count_append]
    rw [recordIdStep_count_id, hms]
    by_cases hd3 : depth = 3 <;>
      by_cases hmo : node.model_attr.isNone = true <;>
      simp [hd3, hmo, UnexpectedXMLTag.init, RecordMissingAttribute.init,
        List.count_cons]

/-- C7 (confirmed): in one analysis pass over a declarative-data file in
which exactly two record elements share the identifier x (all other
identifiers distinct), exactly one RecordDuplicateId is emitted, at the
second occurrence's line and citing the first occurrence's line; and each
record element missing its model or id attribute yields one
RecordMissingAttribute per missing attribute. -/
theorem c7_record_duplicate (cp : Option Pool) (cm : Option PoolModelData)
    (l1 l2 l3 : List (Nat × RecordNode)) (k1 k2 : Nat) (r1 r2 : RecordNode)
    (x : String) (st : XmlRecState) (depth : Nat) (node : RecordNode)
    (h1 : r1.id_attr = some x) (h2 : r2.id_attr = some x)
    (hnd : (idsOf (l1 ++ l2 ++ l3)).Nodup)
    (hx : x ∉ idsOf (l1 ++ l2 ++ l3)) :
    dupFilter ((analyzeRecords
        { fs_ids := [], current_pool := cp, current_model := cm }
        (l1 ++ (k1, r1) :: l2 ++ (k2, r2) :: l3)).2) =
      [RecordDuplicateId.init r2.sourceline x (toString r1.sourceline)] ∧
    List.count (RecordMissingAttribute.init node.sourceline "model")
        (analyze_record_start st depth node).2 =
      (if node.model_attr.isNone then 1 else 0) ∧
    List.count (RecordMissingAttribute.init node.sourceline "id")
        (analyze_record_start st depth node).2 =
      (if node.id_attr.isNone then 1 else 0) := by
  obtain ⟨hmiss1, hmiss2⟩ := analyze_record_start_missing st depth node
  refine ⟨?_, hmiss1, hmiss2⟩
  rw [idsOf_append, idsOf_append] at hnd hx
  have hx1 : x ∉ idsOf l1 := fun hc => hx (by simp [hc])
  have hx2 : x ∉ idsOf l2 := fun hc => hx (by simp [hc])
  have hx3 : x ∉ idsOf l3 := fun hc => hx (by simp [hc])
  rw [List.nodup_append] at hnd
  obtain ⟨hnd12, hnd3, hdisj123⟩ := hnd
  rw [List.nodup_append] at hnd12
  obtain ⟨hnd1, hnd2, hdisj12⟩ := hnd12
  -- stage 1: the prefix l1 over the fresh pass state
  obtain ⟨dup1, pres1, fresh1⟩ := analyzeRecords_fresh l1
    { fs_ids := [], current_pool := cp, current_model := cm }
    (fun i _ => rfl) hnd1
  have hlx1 : ((analyzeRecords
      { fs_ids := [], current_pool := cp, current_model := cm } l1).1).fs_ids.lookup x =
      none := fresh1 x rfl hx1
  -- stage 2: the first occurrence of x
  obtain ⟨dupr1, hfs1⟩ := analyze_record_start_dup_fresh
    (analyzeRecords { fs_ids := [], current_pool := cp, current_model := cm } l1).1
    k1 r1 x h1 hlx1
  have hlx2 : ((analyze_record_start
      (analyzeRecords { fs_ids := [], current_pool := cp, current_model := cm } l1).1
      k1 r1).1).fs_ids.lookup x = some r1.sourceline := by
    rw [hfs1, lookup_append]
    simp only [hlx1]
    exact lookup_singleton_eq x _
  -- stage 3: the middle list l2
  have hfr2 : ∀ j ∈ idsOf l2,
      ((analyze_record_start
        (analyzeRecords { fs_ids := [], current_pool := cp, current_model := cm } l1).1
        k1 r1).1).fs_ids.lookup j = none := by
    intro j hj
    have hjx : j ≠ x := fun h => hx2 (h ▸ hj)
    have hj1 : j ∉ idsOf l1 := fun hc => hdisj12 hc hj
    have hj0 := fresh1 j rfl hj1
    rw [hfs1, lookup_append]
    simp only [hj0]
    exact lookup_singleton_ne j x _ hjx
  obtain ⟨dup2, pres2, fresh2⟩ := analyzeRecords_fresh l2
    (analyze_record_start
      (analyzeRecords { fs_ids := [], current_pool := cp, current_model := cm } l1).1
      k1 r1).1 hfr2 hnd2
  have hlx3 := pres2 x r1.sourceline hlx2
  -- stage 4: the second occurrence of x
  obtain ⟨dupr2, hfs2⟩ := analyze_record_start_dup_hit
    (analyzeRecords
      (analyze_record_start
        (analyzeRecords { fs_ids := [], current_pool := cp, current_model := cm } l1).1
        k1 r1).1 l2).1
    k2 r2 x r1.sourceline h2 hlx3
  -- stage 5: the suffix l3
  have hfr3 : ∀ j ∈ idsOf l3,
      ((analyze_record_start
        (analyzeRecords
          (analyze_record_start
            (analyzeRecords { fs_ids := [], current_pool := cp, current_model := cm } l1).1
            k1 r1).1 l2).1
        k2 r2).1).fs_ids.lookup j = none := by
    intro j hj
    have hjx : j ≠ x := fun h => hx3 (h ▸ hj)
    have hj1 : j ∉ idsOf l1 := fun hc => hdisj123 (List.mem_append_left _ hc) hj
    have hj2 : j ∉ idsOf l2 := fun hc => hdisj123 (List.mem_append_right _ hc) hj
    have hj0 := fresh1 j rfl hj1
    have hjst2 : ((analyze_record_start
        (analyzeRecords { fs_ids := [], current_pool := cp, current_model := cm } l1).1
        k1 r1).1).fs_ids.lookup j = none := by
      rw [hfs1, lookup_append]
      simp only [hj0]
      exact lookup_singleton_ne j x _ hjx
    rw [hfs2]
    exact fresh2 j hjst2 hj2
  obtain ⟨dup3, _, _⟩ := analyzeRecords_fresh l3
    (analyze_record_start
      (analyzeRecords
        (analyze_record_start
          (analyzeRecords { fs_ids := [], current_pool := cp, current_model := cm } l1).1
          k1 r1).1 l2).1
      k2 r2).1 hfr3 hnd3
  -- assemble the diagnostics of the whole pass
  simp only [analyzeRecords_append, analyzeRecords, dupFilter_append]
  rw [dup1, dupr1, dup2, dupr2, dup3]
  simp

/-- Witness for C7: a pass over two records sharing id dup (lines 3 and 7)
yields one RecordDuplicateId at line 7 citing line 3; the second record,
which lacks a model attribute, yields one missing-model and zero
missing-id RecordMissingAttribute diagnostics. -/
theorem c7_record_duplicate_witness :
    dupFilter ((analyzeRecords
        { fs_ids := [], current_pool := none, current_model := none }
        ([] ++ (3, { model_attr := some "book", id_attr := some "dup",
                     sourceline := 3 }) ::
          [] ++ (3, ({ model_attr := none, id_attr := some "dup",
                       sourceline := 7 } : RecordNode)) :: [])).2) =
      [RecordDuplicateId.init 7 "dup" "3"] ∧
    List.count (RecordMissingAttribute.init 7 "model")
        (analyze_record_start
          { fs_ids := [], current_pool := none, current_model := none } 3
          { model_attr := none, id_attr := some "dup", sourceline := 7 }).2 = 1 ∧
    List.count (RecordMissingAttribute.init 7 "id")
        (analyze_record_start
          { fs_ids := [], current_pool := none, current_model := none } 3
          { model_attr := none, id_attr := some "dup", sourceline := 7 }).2 = 0 :=
  c7_record_duplicate none none [] [] [] 3 3
    { model_attr := some "book", id_attr := some "dup", sourceline := 3 }
    { model_attr := none, id_attr := some "dup", sourceline := 7 }
    "dup" { fs_ids := [], current_pool := none, current_model := none } 3
    { model_attr := none, id_attr := some "dup", sourceline := 7 }
    (by decide) (by decide) (by decide) (by decide)
